import Mathlib

/-!
Verification of the client-side state-synchronization layer of the
video_manager repository: the reactive key-value store (`StateManager.js`),
the pub/sub hub (`EventBus`), the push-connection manager
(`WebSocketManager`) and the per-task progress tracker
(`LoadingStateManager`), all shallowly embedded from the JavaScript source.
-/

/-- JavaScript values as far as the store claims need them.  Strict equality
(`===`) is modelled by decidable equality on this type; an absent object
property reads as `undefined`. -/
inductive Val where
  | undefined
  | vint (n : Int)
  | vstr (s : String)
  | vbool (b : Bool)
  | ref (n : Nat)
  deriving DecidableEq, Repr

/-- Association-list lookup, first binding wins (models `Map.get` /
property read on objects whose keys are kept unique). -/
def alookup {α : Type} (k : String) : List (String × α) → Option α
  | [] => none
  | (k', v) :: rest => if k' = k then some v else alookup k rest

/-- Association-list update: overwrite the first binding of `k` in place, or
append a new binding (models `Map.set` / property write). -/
def aset {α : Type} (k : String) (v : α) : List (String × α) → List (String × α)
  | [] => [(k, v)]
  | (k', v') :: rest => if k' = k then (k, v) :: rest else (k', v') :: aset k v rest

/-- Association-list removal of `k` (models `Map.delete` / `delete obj[k]`). -/
def adel {α : Type} (k : String) : List (String × α) → List (String × α)
  | [] => []
  | (k', v') :: rest => if k' = k then adel k rest else (k', v') :: adel k rest

theorem alookup_aset_self {α : Type} (k : String) (v : α) (l : List (String × α)) :
    alookup k (aset k v l) = some v := by
  induction l with
  | nil => simp [aset, alookup]
  | cons hd tl ih =>
    obtain ⟨k', v'⟩ := hd
    by_cases h : k' = k
    · simp [aset, h, alookup]
    · simp [aset, h, alookup, ih]

theorem alookup_adel_self {α : Type} (k : String) (l : List (String × α)) :
    alookup k (adel k l) = none := by
  induction l with
  | nil => simp [adel, alookup]
  | cons hd tl ih =>
    obtain ⟨k', v'⟩ := hd
    by_cases h : k' = k
    · simp [adel, h, ih]
    · simp [adel, h, alookup, ih]

namespace SM

/-- One entry of `StateManager.history` (`addHistory` record shape):
`{property, oldValue, newValue, timestamp}` plus the optional
`action: 'delete'` tag added by the `deleteProperty` trap. -/
structure HistRec where
  property : String
  oldValue : Val
  newValue : Val
  timestamp : Nat
  action : Option String
  deriving DecidableEq, Repr

/-- `this.maxHistorySize = 50` set in the `StateManager` constructor. -/
def maxHistorySize : Nat := 50

/-- The observable state of one `StateManager` instance: the proxied target
object (`state`), the per-key watcher lists (`listeners`, watchers are inert
callbacks identified by `Nat` ids), the mutation `history`, and a log of
watcher invocations `(watcherId, newValue, oldValue)` recording what
`notify` delivered. -/
structure StoreState where
  state : List (String × Val)
  listeners : List (String × List Nat)
  history : List HistRec
  notifyLog : List (Nat × Val × Val)
  deriving DecidableEq, Repr

/-- A freshly constructed `new StateManager({})`. -/
def new : StoreState := ⟨[], [], [], []⟩

/-- `addHistory(record)`: push, then `if (history.length > maxHistorySize)
history.shift()`. -/
def addHistory (h : List HistRec) (r : HistRec) : List HistRec :=
  let h' := h ++ [r]
  if h'.length > maxHistorySize then h'.tail else h'

/-- Reading `target[property]`: an absent property reads `undefined`. -/
def getVal (k : String) (s : StoreState) : Val :=
  (alookup k s.state).getD .undefined

/-- `notify(key, newValue, oldValue)`: if no listeners for `key`, return;
otherwise invoke a snapshot (`[...callbacks]`) of the watcher list in order,
each wrapped in try/catch.  Watchers are inert, so an invocation is recorded
as a `(id, newValue, oldValue)` entry on `notifyLog`. -/
def notify (k : String) (newV oldV : Val) (s : StoreState) : StoreState :=
  match alookup k s.listeners with
  | none => s
  | some cbs => { s with notifyLog := s.notifyLog ++ cbs.map fun i => (i, newV, oldV) }

/-- The `set` trap of `createReactiveState`: read `oldValue`; if
`oldValue === value` return immediately; otherwise append a history record,
write the property, and `notify(property, value, oldValue)`. -/
def proxySet (now : Nat) (k : String) (v : Val) (s : StoreState) : StoreState :=
  let oldValue := getVal k s
  if oldValue = v then s
  else
    let s1 := { s with history := addHistory s.history ⟨k, oldValue, v, now, none⟩ }
    let s2 := { s1 with state := aset k v s1.state }
    notify k v oldValue s2

/-- The `deleteProperty` trap of `createReactiveState`: unconditionally
append a history record with `action: 'delete'` and `newValue: undefined`,
delete the property, and `notify(property, undefined, oldValue)`. -/
def proxyDeleteProperty (now : Nat) (k : String) (s : StoreState) : StoreState :=
  let oldValue := getVal k s
  let s1 := { s with history := addHistory s.history ⟨k, oldValue, .undefined, now, some "delete"⟩ }
  let s2 := { s1 with state := adel k s1.state }
  notify k .undefined oldValue s2

/-- `StateManager.set(key, value)` for a string key:
`this.state[key] = value`, which fires the proxy `set` trap. -/
def set (now : Nat) (k : String) (v : Val) (s : StoreState) : StoreState :=
  proxySet now k v s

/-- One effective store mutation: a `set` through the proxy trap or a
`delete` through the `deleteProperty` trap, each carrying its
`Date.now()` timestamp. -/
inductive StoreOp where
  | setOp (now : Nat) (k : String) (v : Val)
  | delOp (now : Nat) (k : String)
  deriving DecidableEq, Repr

def applyOp (s : StoreState) : StoreOp → StoreState
  | .setOp now k v => proxySet now k v s
  | .delOp now k => proxyDeleteProperty now k s

def applyOps (s : StoreState) (ops : List StoreOp) : StoreState :=
  ops.foldl applyOp s

/-- The watcher list registered for key `k` (empty when none). -/
def watchersOf (k : String) (s : StoreState) : List Nat :=
  (alookup k s.listeners).getD []

theorem notify_state (k : String) (newV oldV : Val) (s : StoreState) :
    (notify k newV oldV s).state = s.state := by
  unfold notify
  cases alookup k s.listeners <;> rfl

theorem notify_history (k : String) (newV oldV : Val) (s : StoreState) :
    (notify k newV oldV s).history = s.history := by
  unfold notify
  cases alookup k s.listeners <;> rfl

theorem getVal_proxySet_self (now : Nat) (k : String) (v : Val) (s : StoreState) :
    getVal k (proxySet now k v s) = v := by
  unfold proxySet
  by_cases h : getVal k s = v
  · simp [h]
  · simp only [h, if_false]
    unfold getVal
    rw [notify_state]
    simp [alookup_aset_self]

theorem proxySet_self_noop (now : Nat) (k : String) (v : Val) (s : StoreState)
    (h : getVal k s = v) : proxySet now k v s = s := by
  unfold proxySet
  simp [h]

theorem addHistory_length_le (h : List HistRec) (r : HistRec)
    (hle : h.length ≤ maxHistorySize) : (addHistory h r).length ≤ maxHistorySize := by
  unfold addHistory
  have hlen : (h ++ [r]).length = h.length + 1 := by simp
  by_cases hgt : (h ++ [r]).length > maxHistorySize
  · simp only [hgt, if_true]
    have := List.length_tail (h ++ [r])
    omega
  · simp only [hgt, if_false]
    omega

theorem applyOp_history_le (s : StoreState) (op : StoreOp)
    (hle : s.history.length ≤ maxHistorySize) :
    (applyOp s op).history.length ≤ maxHistorySize := by
  cases op with
  | setOp now k v =>
    unfold applyOp proxySet
    by_cases h : getVal k s = v
    · simpa [h]
    · simp only [h, if_false]
      rw [notify_history]
      exact addHistory_length_le _ _ hle
  | delOp now k =>
    unfold applyOp proxyDeleteProperty
    rw [notify_history]
    exact addHistory_length_le _ _ hle

theorem applyOps_history_le (ops : List StoreOp) (s : StoreState)
    (hle : s.history.length ≤ maxHistorySize) :
    (applyOps s ops).history.length ≤ maxHistorySize := by
  induction ops generalizing s with
  | nil => simpa [applyOps]
  | cons op rest ih =>
    simpa [applyOps, List.foldl_cons] using ih (applyOp s op) (applyOp_history_le s op hle)

end SM

namespace EB

/-- One primitive step a subscriber callback can take when invoked:
produce an observable effect (`record`), throw an exception (`throwErr`,
which aborts the rest of the callback body), or mutate the bus by
unsubscribing (`doOff`) or subscribing (`doOn`) during the dispatch. -/
inductive Act where
  | record (tag : Nat)
  | throwErr
  | doOff (name : String) (id : Nat)
  | doOn (name : String) (id : Nat) (body : List Act)

/-- A callback: identified by `id` (function identity, used by `off` and by
the dispatch trace) with a body of actions run on invocation. -/
structure Cb where
  id : Nat
  body : List Act

/-- Observable state of an `EventBus`: the `events` map
(name to ordered callback list), plus instrumentation recording what
happened: `trace` lists the ids of callbacks as `emit` invokes them,
`recs` lists the `record` effects callbacks produced, and `errLog` gets one
entry (the event name) per exception caught by `emit`'s try/catch. -/
structure BusState where
  events : List (String × List Cb)
  trace : List Nat
  recs : List Nat
  errLog : List String

/-- A freshly constructed `new EventBus()`. -/
def empty : BusState := ⟨[], [], [], []⟩

/-- `on(eventName, callback)`: create the (empty) list if absent, then push
the callback.  (The returned unsubscribe closure is not modelled.) -/
def onEv (name : String) (cb : Cb) (s : BusState) : BusState :=
  { s with events := aset name (((alookup name s.events).getD []) ++ [cb]) s.events }

/-- `callbacks.indexOf(callback)` followed by `splice(index, 1)`: remove the
first entry with the given identity, if any. -/
def eraseFirstById (i : Nat) : List Cb → List Cb
  | [] => []
  | cb :: rest => if cb.id = i then rest else cb :: eraseFirstById i rest

/-- `off(eventName, callback)`: return if the event is unknown; otherwise
splice out the first matching callback and delete the event entry when the
list has become empty. -/
def off (name : String) (i : Nat) (s : BusState) : BusState :=
  match alookup name s.events with
  | none => s
  | some cbs =>
      let cbs' := eraseFirstById i cbs
      if cbs'.length = 0 then { s with events := adel name s.events }
      else { s with events := aset name cbs' s.events }

/-- `once(eventName, callback)`: subscribe a fresh wrapper whose body first
runs the user callback and only then calls `off(eventName, wrapper)`; if the
callback throws, execution short-circuits and the `off` is never reached,
exactly as in `const wrapper = (...args) => { callback(...args);
this.off(eventName, wrapper); }`. -/
def once (name : String) (wid : Nat) (inner : List Act) (s : BusState) : BusState :=
  onEv name ⟨wid, inner ++ [.doOff name wid]⟩ s

/-- Run a callback body: actions execute in order, mutating the bus;
`throwErr` aborts the body and reports `true` (the callback threw). -/
def runActs : List Act → BusState → BusState × Bool
  | [], s => (s, false)
  | .record t :: rest, s => runActs rest { s with recs := s.recs ++ [t] }
  | .throwErr :: _, s => (s, true)
  | .doOff n i :: rest, s => runActs rest (off n i s)
  | .doOn n i b :: rest, s => runActs rest (onEv n ⟨i, b⟩ s)

/-- The `[...callbacks].forEach` loop of `emit`: iterate the snapshot taken
at dispatch start (later mutations of `events` do not change it), record
each invocation on `trace`, run the body, and catch any exception, logging
it on `errLog` and continuing with the remaining callbacks. -/
def runSnapshot (name : String) : List Cb → BusState → BusState
  | [], s => s
  | cb :: rest, s =>
      let s1 := { s with trace := s.trace ++ [cb.id] }
      let r := runActs cb.body s1
      let s2 := if r.2 then { r.1 with errLog := r.1.errLog ++ [name] } else r.1
      runSnapshot name rest s2

/-- `emit(eventName, ...args)`: return if the event is unknown, otherwise
dispatch over a copy of the current callback list.  Total: no exception
channel exists in its result, matching the per-callback try/catch. -/
def emit (name : String) (s : BusState) : BusState :=
  match alookup name s.events with
  | none => s
  | some cbs => runSnapshot name cbs s

def isRecord : Act → Bool
  | .record _ => true
  | _ => false

def isThrow : Act → Bool
  | .throwErr => true
  | _ => false

/-- A callback body that only produces observable effects: it neither
throws nor mutates the bus. -/
def recordOnly (b : List Act) : Bool := b.all isRecord

/-- The observable effects a body produces, in order. -/
def tags : List Act → List Nat
  | [] => []
  | .record t :: rest => t :: tags rest
  | _ :: rest => tags rest

theorem off_trace (n : String) (i : Nat) (s : BusState) : (off n i s).trace = s.trace := by
  unfold off
  cases alookup n s.events with
  | none => rfl
  | some cbs =>
      dsimp only
      split <;> rfl

theorem onEv_trace (n : String) (cb : Cb) (s : BusState) : (onEv n cb s).trace = s.trace := rfl

theorem off_errLog (n : String) (i : Nat) (s : BusState) : (off n i s).errLog = s.errLog := by
  unfold off
  cases alookup n s.events with
  | none => rfl
  | some cbs =>
      dsimp only
      split <;> rfl

theorem onEv_errLog (n : String) (cb : Cb) (s : BusState) : (onEv n cb s).errLog = s.errLog := rfl

theorem runActs_trace (b : List Act) : ∀ s : BusState, (runActs b s).1.trace = s.trace := by
  induction b with
  | nil => intro s; rfl
  | cons a rest ih =>
      intro s
      cases a with
      | record t =>
          show (runActs rest { s with recs := s.recs ++ [t] }).1.trace = s.trace
          rw [ih]
      | throwErr => rfl
      | doOff n i =>
          show (runActs rest (off n i s)).1.trace = s.trace
          rw [ih, off_trace]
      | doOn n i bb =>
          show (runActs rest (onEv n ⟨i, bb⟩ s)).1.trace = s.trace
          rw [ih, onEv_trace]

theorem runActs_errLog (b : List Act) : ∀ s : BusState, (runActs b s).1.errLog = s.errLog := by
  induction b with
  | nil => intro s; rfl
  | cons a rest ih =>
      intro s
      cases a with
      | record t =>
          show (runActs rest { s with recs := s.recs ++ [t] }).1.errLog = s.errLog
          rw [ih]
      | throwErr => rfl
      | doOff n i =>
          show (runActs rest (off n i s)).1.errLog = s.errLog
          rw [ih, off_errLog]
      | doOn n i bb =>
          show (runActs rest (onEv n ⟨i, bb⟩ s)).1.errLog = s.errLog
          rw [ih, onEv_errLog]

theorem runActs_snd (b : List Act) : ∀ s : BusState, (runActs b s).2 = b.any isThrow := by
  induction b with
  | nil => intro s; rfl
  | cons a rest ih =>
      intro s
      cases a with
      | record t => simp [runActs, isThrow, ih]
      | throwErr => simp [runActs, isThrow]
      | doOff n i => simp [runActs, isThrow, ih]
      | doOn n i bb => simp [runActs, isThrow, ih]

theorem runSnapshot_trace (name : String) (cbs : List Cb) :
    ∀ s : BusState, (runSnapshot name cbs s).trace = s.trace ++ cbs.map Cb.id := by
  induction cbs with
  | nil => intro s; simp [runSnapshot]
  | cons cb rest ih =>
      intro s
      unfold runSnapshot
      dsimp only
      rw [ih]
      by_cases h : (runActs cb.body { s with trace := s.trace ++ [cb.id] }).2
      · simp [h, runActs_trace]
      · simp [h, runActs_trace]

theorem runSnapshot_errLog (name : String) (cbs : List Cb) :
    ∀ s : BusState, (runSnapshot name cbs s).errLog
      = s.errLog ++ (cbs.filter fun cb => cb.body.any isThrow).map (fun _ => name) := by
  induction cbs with
  | nil => intro s; simp [runSnapshot]
  | cons cb rest ih =>
      intro s
      unfold runSnapshot
      dsimp only
      rw [ih]
      by_cases h : (runActs cb.body { s with trace := s.trace ++ [cb.id] }).2
      · have hthrow : cb.body.any isThrow = true := by
          rw [← runActs_snd cb.body { s with trace := s.trace ++ [cb.id] }]; exact h
        simp [h, hthrow, runActs_errLog]
      · have hthrow : cb.body.any isThrow = false := by
          rw [← runActs_snd cb.body { s with trace := s.trace ++ [cb.id] }]
          simpa using h
        simp [h, hthrow, runActs_errLog]

theorem emit_of_not_subscribed (name : String) (s : BusState)
    (h : alookup name s.events = none) : emit name s = s := by
  unfold emit
  rw [h]

theorem runActs_recordOnly (b : List Act) (hrec : recordOnly b = true) :
    ∀ (rest : List Act) (s : BusState),
      runActs (b ++ rest) s = runActs rest { s with recs := s.recs ++ tags b } := by
  induction b with
  | nil =>
      intro rest s
      cases s
      simp [tags]
  | cons a b' ih =>
      intro rest s
      cases a with
      | record t =>
          have hb' : recordOnly b' = true := by
            have h2 := hrec
            rw [recordOnly, List.all_cons, Bool.and_eq_true] at h2
            exact h2.2
          show runActs (b' ++ rest) { s with recs := s.recs ++ [t] }
              = runActs rest { s with recs := s.recs ++ tags (Act.record t :: b') }
          rw [ih hb']
          simp [tags]
      | throwErr => simp [recordOnly, isRecord] at hrec
      | doOff n i => simp [recordOnly, isRecord] at hrec
      | doOn n i bb => simp [recordOnly, isRecord] at hrec

theorem emit_of_subscribed (name : String) (cbs : List Cb) (s : BusState)
    (h : alookup name s.events = some cbs) : emit name s = runSnapshot name cbs s := by
  unfold emit
  rw [h]

theorem runSnapshot_single_eq (name : String) (cb : Cb) (s : BusState) :
    runSnapshot name [cb] s
      = (if (runActs cb.body { s with trace := s.trace ++ [cb.id] }).2
         then { (runActs cb.body { s with trace := s.trace ++ [cb.id] }).1 with
                  errLog := (runActs cb.body
                    { s with trace := s.trace ++ [cb.id] }).1.errLog ++ [name] }
         else (runActs cb.body { s with trace := s.trace ++ [cb.id] }).1) := rfl

theorem off_single (name : String) (i : Nat) (cb : Cb) (s : BusState)
    (hid : cb.id = i) (h : alookup name s.events = some [cb]) :
    off name i s = { s with events := adel name s.events } := by
  unfold off
  rw [h]
  simp [eraseFirstById, hid]

/-- After `once(name, cb)` registers its wrapper on an event with no other
subscribers, one `emit(name)` with a non-throwing, bus-inert callback body
invokes the wrapper (appending `wid` to the trace), runs the callback's
effects, and removes the event entry via the wrapper's self-`off`. -/
theorem emit_once_clean (s : BusState) (name : String) (wid : Nat) (b : List Act)
    (hfresh : alookup name s.events = none) (hrec : recordOnly b = true) :
    emit name (once name wid b s)
      = { s with
            events := adel name (aset name [⟨wid, b ++ [Act.doOff name wid]⟩] s.events),
            trace := s.trace ++ [wid],
            recs := s.recs ++ tags b } := by
  have h1 : once name wid b s
      = { s with events := aset name [⟨wid, b ++ [Act.doOff name wid]⟩] s.events } := by
    unfold once onEv
    simp [hfresh]
  rw [h1]
  have h2 : emit name
        { s with events := aset name [⟨wid, b ++ [Act.doOff name wid]⟩] s.events }
      = runSnapshot name [⟨wid, b ++ [Act.doOff name wid]⟩]
          { s with events := aset name [⟨wid, b ++ [Act.doOff name wid]⟩] s.events } := by
    apply emit_of_subscribed
    exact alookup_aset_self _ _ _
  rw [h2, runSnapshot_single_eq]
  have h4 : runActs ((⟨wid, b ++ [Act.doOff name wid]⟩ : Cb).body)
        { { s with events := aset name [⟨wid, b ++ [Act.doOff name wid]⟩] s.events }
            with trace := s.trace ++ [wid] }
      = (off name wid
          { { { s with events := aset name [⟨wid, b ++ [Act.doOff name wid]⟩] s.events }
              with trace := s.trace ++ [wid] } with recs := s.recs ++ tags b }, false) := by
    show runActs (b ++ [Act.doOff name wid]) _ = _
    rw [runActs_recordOnly b hrec]
    rfl
  rw [show ({ s with events := aset name [⟨wid, b ++ [Act.doOff name wid]⟩] s.events }
        : BusState).trace = s.trace from rfl] at h4
  rw [h4]
  simp only [Bool.false_eq_true, if_false]
  rw [off_single name wid ⟨wid, b ++ [Act.doOff name wid]⟩ _ rfl (alookup_aset_self _ _ _)]

end EB

namespace WS

/-- `WebSocket.readyState` values. -/
inductive ReadyState where
  | CONNECTING
  | OPEN
  | CLOSING
  | CLOSED
  deriving DecidableEq, Repr

/-- Observable state of a `WebSocketManager`: the `isConnected` flag the
class maintains, the socket (`none` models `this.socket === null`, otherwise
its `readyState`), the frames actually transmitted on the transport
(`JSON.stringify`'d payloads, kept opaque as strings), and the warnings
logged via `console.warn`. -/
structure WSState where
  isConnected : Bool
  socket : Option ReadyState
  sentFrames : List String
  warnLog : List String
  deriving DecidableEq, Repr

/-- `getState()`: `'CLOSED'` when `this.socket` is null, otherwise the name
of `this.socket.readyState`. -/
def getState (s : WSState) : String :=
  match s.socket with
  | none => "CLOSED"
  | some .CONNECTING => "CONNECTING"
  | some .OPEN => "OPEN"
  | some .CLOSING => "CLOSING"
  | some .CLOSED => "CLOSED"

/-- How one call to `send` ends: data transmitted, silently dropped with a
logged warning, or a thrown `TypeError` (reading `readyState` of a null
socket). -/
inductive SendOutcome where
  | sent
  | droppedWithWarn
  | threwTypeError
  deriving DecidableEq, Repr

def warnMsg : String := "WebSocket 未連接，無法發送訊息"

/-- `send(data)`: `if (this.isConnected && this.socket.readyState ===
WebSocket.OPEN) this.socket.send(JSON.stringify(data)); else
console.warn(...)`.  The `&&` short-circuits, so with `isConnected` false
the null socket is never dereferenced; with `isConnected` true and a null
socket the property read throws. -/
def send (data : String) (s : WSState) : WSState × SendOutcome :=
  if s.isConnected then
    match s.socket with
    | none => (s, .threwTypeError)
    | some rs =>
        if rs = .OPEN then ({ s with sentFrames := s.sentFrames ++ [data] }, .sent)
        else ({ s with warnLog := s.warnLog ++ [warnMsg] }, .droppedWithWarn)
  else ({ s with warnLog := s.warnLog ++ [warnMsg] }, .droppedWithWarn)

end WS

namespace LSM

/-- One entry of `LoadingStateManager.loadingStates`: the object built by
`startLoading` and mutated by `updateProgress` / `finishLoading`.  The
`finished` property is absent until `finishLoading` sets it; absence is
modelled as `false`. -/
structure LoadTask where
  taskId : String
  message : String
  progress : Int
  stage : String
  startTime : Nat
  estimatedTimeRemaining : Option Rat
  finished : Bool
  deriving DecidableEq, Repr

/-- Observable state of a `LoadingStateManager`: the per-task map plus the
`console.warn` log (DOM progress rendering is outside the model). -/
structure TrackerState where
  loadingStates : List (String × LoadTask)
  warnLog : List String
  deriving DecidableEq, Repr

/-- A freshly constructed `new LoadingStateManager()`. -/
def empty : TrackerState := ⟨[], []⟩

/-- `startLoading(taskId, message)`: store a fresh state with progress 0,
stage `'initializing'`, `startTime = Date.now()` and no ETA. -/
def startLoading (now : Nat) (taskId : String) (message : String) (s : TrackerState) :
    TrackerState :=
  let t : LoadTask := ⟨taskId, message, 0, "initializing", now, none, false⟩
  { s with loadingStates := aset taskId t s.loadingStates }

/-- `startLoading(taskId)` with the default message `'載入中...'`. -/
def startLoadingDefault (now : Nat) (taskId : String) (s : TrackerState) : TrackerState :=
  startLoading now taskId "載入中..." s

/-- `updateProgress(taskId, progress, message = null, stage = 'processing')`:
warn and return if the task is unknown; clamp progress to [0,100]; set the
message only when truthy (`if (message)`, so `null` and `''` are skipped);
set the stage unconditionally; recompute the ETA `(100 - p) / (p / elapsed)`
whenever the rate is positive and progress is below 100 (with `elapsed = 0`
and `p > 0` the JS rate is `Infinity` and the ETA `0`, which the rational
`(100 - p) * elapsed / p` also yields). -/
def updateProgress (now : Nat) (taskId : String) (progress : Int)
    (message : Option String) (stage : String) (s : TrackerState) : TrackerState :=
  match alookup taskId s.loadingStates with
  | none => { s with warnLog := s.warnLog ++ ["找不到任務 " ++ taskId ++ " 的載入狀態"] }
  | some st =>
      let p := min 100 (max 0 progress)
      let msg := match message with
        | some m => if m = "" then st.message else m
        | none => st.message
      let elapsed : Nat := now - st.startTime
      let est : Option Rat :=
        if 0 < p ∧ p < 100
        then some ((((100 : Rat) - (p : Rat)) * (elapsed : Rat)) / (p : Rat))
        else st.estimatedTimeRemaining
      let st' := { st with progress := p, message := msg, stage := stage,
                           estimatedTimeRemaining := est }
      { s with loadingStates := aset taskId st' s.loadingStates }

/-- `updateProgress(taskId, progress)` with both optional arguments left at
their defaults (`message = null`, `stage = 'processing'`). -/
def updateProgressDefault (now : Nat) (taskId : String) (progress : Int)
    (s : TrackerState) : TrackerState :=
  updateProgress now taskId progress none "processing" s

/-- `finishLoading(taskId, success = true, message = '完成')`: silently
return if the task is unknown (no warning); otherwise force progress 100,
overwrite the message, set stage `'completed'` or `'error'` by `success`,
and set `finished`.  (The delayed `setTimeout` purge of the entry after the
grace period is a separate asynchronous step, not part of this synchronous
call.) -/
def finishLoading (taskId : String) (success : Bool) (message : String)
    (s : TrackerState) : TrackerState :=
  match alookup taskId s.loadingStates with
  | none => s
  | some st =>
      let st' := { st with progress := 100, message := message,
                           stage := if success then "completed" else "error",
                           finished := true }
      { s with loadingStates := aset taskId st' s.loadingStates }

/-- `finishLoading(taskId, true)` with the default completion message. -/
def finishLoadingDefault (taskId : String) (s : TrackerState) : TrackerState :=
  finishLoading taskId true "完成" s

/-- `getProgress(taskId)`: the stored progress, or 0 for an unknown task. -/
def getProgress (taskId : String) (s : TrackerState) : Int :=
  match alookup taskId s.loadingStates with
  | some st => st.progress
  | none => 0

/-- `getStage(taskId)`: the stored stage, or `null` for an unknown task. -/
def getStage (taskId : String) (s : TrackerState) : Option String :=
  (alookup taskId s.loadingStates).map LoadTask.stage

end LSM

namespace SM

theorem notify_notifyLog (k : String) (newV oldV : Val) (s : StoreState) :
    (notify k newV oldV s).notifyLog
      = s.notifyLog ++ (watchersOf k s).map (fun i => (i, newV, oldV)) := by
  unfold notify watchersOf
  cases h : alookup k s.listeners with
  | none => simp
  | some cbs => simp

theorem addHistory_getLast (h : List HistRec) (r : HistRec) :
    (addHistory h r).getLast? = some r := by
  unfold addHistory
  by_cases hgt : (h ++ [r]).length > maxHistorySize
  · simp only [hgt, if_true]
    cases h with
    | nil => simp [maxHistorySize] at hgt
    | cons a t => simp
  · simp only [hgt, if_false]
    simp

theorem proxyDeleteProperty_eq (now : Nat) (k : String) (s : StoreState) :
    proxyDeleteProperty now k s
      = notify k .undefined (getVal k s)
          ⟨adel k s.state, s.listeners,
           addHistory s.history ⟨k, getVal k s, .undefined, now, some "delete"⟩,
           s.notifyLog⟩ := rfl

end SM

/-!
The claims.  Each claim of the specification is settled by one theorem
below, stated against the embedded definitions above.
-/

/-- C1, counterexample: `once` registers a wrapper that calls the user
callback before unsubscribing itself, so a callback that throws (body
`[record 7, throwErr]`) aborts the wrapper before its self-`off` runs.  The
callback's observable effect `7` is therefore produced again by the second
`emit`: it is invoked twice, refuting "cb is invoked exactly once ...
regardless of cb's behaviour (including cb throwing)". -/
theorem once_throwing_cb_refires_cex :
    (EB.emit "e" (EB.emit "e"
        (EB.once "e" 0 [EB.Act.record 7, EB.Act.throwErr] EB.empty))).recs = [7, 7] := by
  rfl

/-- C1, amended: for a callback that does not throw (and does not itself
resubscribe or unsubscribe), registered via `once` on an event with no other
subscribers, the first `emit` invokes it exactly once (the wrapper id `wid`
is appended to the dispatch trace once and the callback's effects happen
once) and any number of later `emit`s of the same event invoke nothing
further. -/
theorem once_fires_exactly_once (s : EB.BusState) (name : String) (wid : Nat)
    (b : List EB.Act) (k : Nat)
    (hfresh : alookup name s.events = none) (hrec : EB.recordOnly b = true) :
    ((EB.emit name)^[k] (EB.emit name (EB.once name wid b s))).trace = s.trace ++ [wid]
    ∧ ((EB.emit name)^[k] (EB.emit name (EB.once name wid b s))).recs
        = s.recs ++ EB.tags b := by
  have h := EB.emit_once_clean s name wid b hfresh hrec
  have hnone : alookup name (EB.emit name (EB.once name wid b s)).events = none := by
    rw [h]
    exact alookup_adel_self _ _
  have hfix : EB.emit name (EB.emit name (EB.once name wid b s))
      = EB.emit name (EB.once name wid b s) :=
    EB.emit_of_not_subscribed _ _ hnone
  rw [Function.iterate_fixed hfix k, h]
  exact ⟨rfl, rfl⟩

theorem once_fires_exactly_once_witness :
    (alookup "e" EB.empty.events = none ∧ EB.recordOnly [EB.Act.record 7] = true)
    ∧ (((EB.emit "e")^[2]
          (EB.emit "e" (EB.once "e" 0 [EB.Act.record 7] EB.empty))).trace
            = EB.empty.trace ++ [0]
       ∧ ((EB.emit "e")^[2]
          (EB.emit "e" (EB.once "e" 0 [EB.Act.record 7] EB.empty))).recs
            = EB.empty.recs ++ EB.tags [EB.Act.record 7]) :=
  ⟨⟨rfl, rfl⟩, once_fires_exactly_once EB.empty "e" 0 [EB.Act.record 7] 2 rfl rfl⟩

/-- C2, counterexample: immediately after `startLoading`, the stage is
`'initializing'`; calling `updateProgress(taskId, progress)` with no message
and no stage argument overwrites the stage with the default `'processing'`
(the source assigns `state.stage = stage` unconditionally), so the stored
stage is not left unchanged. -/
theorem updateProgress_default_changes_stage_cex :
    LSM.getStage "t"
        (LSM.updateProgressDefault 5 "t" 30 (LSM.startLoadingDefault 0 "t" LSM.empty))
      = some "processing"
    ∧ LSM.getStage "t" (LSM.startLoadingDefault 0 "t" LSM.empty)
      = some "initializing" := by
  constructor <;> rfl

/-- C2, amended: for a tracked task, `updateProgress(taskId, progress)` with
no message and no stage argument leaves the stored message unchanged, but
sets the stored stage to the default `'processing'` (the stage is updated
unconditionally, not only when given). -/
theorem updateProgress_default_keeps_message_sets_stage
    (s : LSM.TrackerState) (now : Nat) (taskId : String) (p : Int) (st : LSM.LoadTask)
    (h : alookup taskId s.loadingStates = some st) :
    (alookup taskId
        (LSM.updateProgressDefault now taskId p s).loadingStates).map LSM.LoadTask.message
      = some st.message
    ∧ LSM.getStage taskId (LSM.updateProgressDefault now taskId p s)
      = some "processing" := by
  unfold LSM.updateProgressDefault LSM.updateProgress
  rw [h]
  constructor
  · simp [alookup_aset_self]
  · simp [LSM.getStage, alookup_aset_self]

theorem updateProgress_default_keeps_message_sets_stage_witness :
    alookup "t" (LSM.startLoadingDefault 0 "t" LSM.empty).loadingStates
      = some ⟨"t", "載入中...", 0, "initializing", 0, none, false⟩
    ∧ ((alookup "t"
          (LSM.updateProgressDefault 5 "t" 30
            (LSM.startLoadingDefault 0 "t" LSM.empty)).loadingStates).map
              LSM.LoadTask.message
        = some (LSM.LoadTask.mk "t" "載入中..." 0 "initializing" 0 none false).message
       ∧ LSM.getStage "t"
          (LSM.updateProgressDefault 5 "t" 30 (LSM.startLoadingDefault 0 "t" LSM.empty))
        = some "processing") :=
  ⟨rfl, updateProgress_default_keeps_message_sets_stage
    (LSM.startLoadingDefault 0 "t" LSM.empty) 5 "t" 30
    ⟨"t", "載入中...", 0, "initializing", 0, none, false⟩ rfl⟩

/-- C3, counterexample: `finishLoading` on an unknown taskId returns the
tracker completely unchanged — in particular its `console.warn` log is
unchanged, so no warning is logged, refuting the part of the claim that says
both `updateProgress` and `finishLoading` log a warning for an unknown
taskId. -/
theorem finishLoading_unknown_silent_cex :
    LSM.finishLoading "x" true "done" LSM.empty = LSM.empty := by
  rfl

/-- C3, amended: for a taskId not currently tracked, `updateProgress` leaves
the task map unchanged, throws nothing and logs a warning, while
`finishLoading` is a completely silent no-op: it leaves the whole tracker
state (warning log included) unchanged and logs no warning. -/
theorem unknown_taskId_noop (s : LSM.TrackerState) (now : Nat) (taskId : String)
    (p : Int) (m : Option String) (stg : String) (success : Bool) (fmsg : String)
    (h : alookup taskId s.loadingStates = none) :
    LSM.updateProgress now taskId p m stg s
        = { s with warnLog := s.warnLog ++ ["找不到任務 " ++ taskId ++ " 的載入狀態"] }
    ∧ LSM.finishLoading taskId success fmsg s = s := by
  constructor
  · unfold LSM.updateProgress
    rw [h]
  · unfold LSM.finishLoading
    rw [h]

theorem unknown_taskId_noop_witness :
    alookup "x" LSM.empty.loadingStates = none
    ∧ (LSM.updateProgress 0 "x" 10 none "processing" LSM.empty
          = { LSM.empty with
                warnLog := LSM.empty.warnLog ++ ["找不到任務 " ++ "x" ++ " 的載入狀態"] }
       ∧ LSM.finishLoading "x" true "done" LSM.empty = LSM.empty) :=
  ⟨rfl, unknown_taskId_noop LSM.empty 0 "x" 10 none "processing" true "done" rfl⟩

/-- C4: if the store's current value at `k` is strictly equal to `v`, then
`set(k, v)` is a no-op — the whole observable state (stored values, history,
watcher-notification log) is unchanged — and setting a key to the same value
twice in a row equals setting it once, so the second call adds no history
entry and no notification. -/
theorem set_strict_equal_is_noop (s : SM.StoreState) (n1 n2 : Nat) (k : String) (v : Val) :
    (SM.getVal k s = v → SM.set n1 k v s = s)
    ∧ SM.set n2 k v (SM.set n1 k v s) = SM.set n1 k v s := by
  constructor
  · intro h
    exact SM.proxySet_self_noop n1 k v s h
  · exact SM.proxySet_self_noop n2 k v _ (SM.getVal_proxySet_self n1 k v s)

theorem set_strict_equal_is_noop_witness :
    (SM.getVal "k" SM.new = Val.undefined ∧ SM.set 0 "k" Val.undefined SM.new = SM.new)
    ∧ SM.set 1 "k" Val.undefined (SM.set 0 "k" Val.undefined SM.new)
        = SM.set 0 "k" Val.undefined SM.new :=
  ⟨⟨rfl, (set_strict_equal_is_noop SM.new 0 1 "k" Val.undefined).1 rfl⟩,
   (set_strict_equal_is_noop SM.new 0 1 "k" Val.undefined).2⟩

/-- C5: `emit(name)` dispatches to exactly the subscribers present at the
start of the dispatch, in registration order — the trace grows by the snapshot
list of callback ids whatever the callback bodies do (throwing,
unsubscribing, subscribing) — and every exception a callback throws is
caught and logged (one error-log entry per throwing callback), so all
remaining callbacks still run and `emit` itself, a total function, never
propagates an exception. -/
theorem emit_dispatches_snapshot_fault_isolated (name : String) (s : EB.BusState) :
    (EB.emit name s).trace
        = s.trace ++ ((alookup name s.events).getD []).map EB.Cb.id
    ∧ (EB.emit name s).errLog
        = s.errLog ++ (((alookup name s.events).getD []).filter
            (fun cb => cb.body.any EB.isThrow)).map (fun _ => name) := by
  cases h : alookup name s.events with
  | none =>
      rw [EB.emit_of_not_subscribed name s h]
      constructor <;> simp
  | some cbs =>
      constructor
      · rw [EB.emit_of_subscribed name cbs s h, EB.runSnapshot_trace]
        rfl
      · rw [EB.emit_of_subscribed name cbs s h, EB.runSnapshot_errLog]
        rfl

/-- C6: while the manager's reported connection state is not `'OPEN'`,
`send(frame)` transmits nothing, throws no error, and only appends one
warning to the log — the caller gets no success/failure signal.  The
invariant hypothesis (a connected manager has a non-null socket) holds in
every state the class's own transitions produce, since `close()` nulls the
socket only together with clearing `isConnected`. -/
theorem send_not_open_drops_with_warning (s : WS.WSState) (f : String)
    (hinv : s.isConnected = true → s.socket.isSome)
    (h : WS.getState s ≠ "OPEN") :
    WS.send f s
      = ({ s with warnLog := s.warnLog ++ [WS.warnMsg] },
         WS.SendOutcome.droppedWithWarn) := by
  unfold WS.send
  cases hc : s.isConnected with
  | false => simp [hc]
  | true =>
      have hs := hinv hc
      cases hsock : s.socket with
      | none =>
          rw [hsock] at hs
          simp at hs
      | some rs =>
          have hrs : rs ≠ WS.ReadyState.OPEN := by
            intro heq
            apply h
            unfold WS.getState
            rw [hsock, heq]
          simp [hc, hsock, hrs]

theorem send_not_open_drops_with_warning_witness :
    ((WS.WSState.mk false none [] []).isConnected = true
        → (WS.WSState.mk false none [] []).socket.isSome)
    ∧ WS.getState (WS.WSState.mk false none [] []) ≠ "OPEN"
    ∧ WS.send "frame" (WS.WSState.mk false none [] [])
        = ({ WS.WSState.mk false none [] [] with
              warnLog := (WS.WSState.mk false none [] []).warnLog ++ [WS.warnMsg] },
           WS.SendOutcome.droppedWithWarn) :=
  ⟨fun hc => by simp at hc, by decide,
   send_not_open_drops_with_warning (WS.WSState.mk false none [] []) "frame"
     (fun hc => by simp at hc) (by decide)⟩

/-- C7: starting from a fresh store, no sequence of effective mutations
(sets and deletes through the proxy traps) ever leaves more than 50 records
in the history, and recording a mutation while the history already holds 50
records drops exactly the earliest record and keeps all later ones in order
(FIFO eviction: the new history is `h.tail ++ [r]`). -/
theorem history_bounded_fifo (ops : List SM.StoreOp) (h : List SM.HistRec)
    (r : SM.HistRec) (hfull : h.length = 50) :
    (SM.applyOps SM.new ops).history.length ≤ 50
    ∧ SM.addHistory h r = h.tail ++ [r] := by
  constructor
  · exact SM.applyOps_history_le ops SM.new (by simp [SM.new, SM.maxHistorySize])
  · unfold SM.addHistory
    have hgt : (h ++ [r]).length > SM.maxHistorySize := by
      simp [hfull, SM.maxHistorySize]
    simp only [hgt, if_true]
    cases h with
    | nil => simp at hfull
    | cons a t => simp

theorem history_bounded_fifo_witness :
    (List.replicate 50 (SM.HistRec.mk "p" Val.undefined Val.undefined 0 none)).length = 50
    ∧ ((SM.applyOps SM.new [SM.StoreOp.setOp 0 "a" (Val.vint 1)]).history.length ≤ 50
       ∧ SM.addHistory (List.replicate 50 (SM.HistRec.mk "p" Val.undefined Val.undefined 0 none))
            (SM.HistRec.mk "q" Val.undefined (Val.vint 1) 1 none)
          = (List.replicate 50 (SM.HistRec.mk "p" Val.undefined Val.undefined 0 none)).tail
              ++ [SM.HistRec.mk "q" Val.undefined (Val.vint 1) 1 none]) :=
  ⟨by simp,
   history_bounded_fifo [SM.StoreOp.setOp 0 "a" (Val.vint 1)]
     (List.replicate 50 (SM.HistRec.mk "p" Val.undefined Val.undefined 0 none))
     (SM.HistRec.mk "q" Val.undefined (Val.vint 1) 1 none) (by simp)⟩

/-- C8: immediately after `finishLoading(taskId, success, message)` on a
tracked task, the stored progress is 100, the stage is `'completed'` when
`success` and `'error'` otherwise, and `finished` is set; in particular in
the scenario `startLoading("t1")`, `updateProgress("t1", 50, "half",
"transcribing")`, `finishLoading("t1", true)`, afterwards
`getProgress("t1") = 100` and `getStage("t1") = "completed"`. -/
theorem finishLoading_finalizes (s : LSM.TrackerState) (taskId : String)
    (success : Bool) (msg : String) (st : LSM.LoadTask)
    (h : alookup taskId s.loadingStates = some st) :
    (LSM.getProgress taskId (LSM.finishLoading taskId success msg s) = 100
     ∧ LSM.getStage taskId (LSM.finishLoading taskId success msg s)
         = some (if success then "completed" else "error")
     ∧ (alookup taskId
          (LSM.finishLoading taskId success msg s).loadingStates).map
            LSM.LoadTask.finished = some true)
    ∧ (LSM.getProgress "t1"
          (LSM.finishLoading "t1" true "完成"
            (LSM.updateProgress 5 "t1" 50 (some "half") "transcribing"
              (LSM.startLoadingDefault 0 "t1" LSM.empty))) = 100
       ∧ LSM.getStage "t1"
          (LSM.finishLoading "t1" true "完成"
            (LSM.updateProgress 5 "t1" 50 (some "half") "transcribing"
              (LSM.startLoadingDefault 0 "t1" LSM.empty))) = some "completed") := by
  constructor
  · unfold LSM.finishLoading
    rw [h]
    refine ⟨?_, ?_, ?_⟩
    · simp [LSM.getProgress, alookup_aset_self]
    · simp [LSM.getStage, alookup_aset_self]
    · simp [alookup_aset_self]
  · constructor <;> rfl

theorem finishLoading_finalizes_witness :
    alookup "t1" (LSM.startLoadingDefault 0 "t1" LSM.empty).loadingStates
      = some ⟨"t1", "載入中...", 0, "initializing", 0, none, false⟩
    ∧ LSM.getProgress "t1"
        (LSM.finishLoading "t1" true "完成" (LSM.startLoadingDefault 0 "t1" LSM.empty))
      = 100 :=
  ⟨rfl,
   (finishLoading_finalizes (LSM.startLoadingDefault 0 "t1" LSM.empty) "t1" true "完成"
      ⟨"t1", "載入中...", 0, "initializing", 0, none, false⟩ rfl).1.1⟩

/-- C9: deleting a key `k` present in the store with value `oldValue`
notifies each watcher of `k` exactly once — the notification log grows by
exactly one `(watcher, undefined, oldValue)` entry per registered watcher of
`k`, in registration order. -/
theorem delete_notifies_watchers_once (s : SM.StoreState) (now : Nat) (k : String)
    (oldV : Val) (h : alookup k s.state = some oldV) :
    (SM.proxyDeleteProperty now k s).notifyLog
      = s.notifyLog ++ (SM.watchersOf k s).map (fun i => (i, Val.undefined, oldV)) := by
  have hold : SM.getVal k s = oldV := by
    simp [SM.getVal, h]
  rw [SM.proxyDeleteProperty_eq, SM.notify_notifyLog, hold]
  rfl

theorem delete_notifies_watchers_once_witness :
    alookup "k" (SM.StoreState.mk [("k", Val.vint 9)] [("k", [0, 1])] [] []).state
      = some (Val.vint 9)
    ∧ (SM.proxyDeleteProperty 3 "k"
          (SM.StoreState.mk [("k", Val.vint 9)] [("k", [0, 1])] [] [])).notifyLog
        = (SM.StoreState.mk [("k", Val.vint 9)] [("k", [0, 1])] [] []).notifyLog
            ++ (SM.watchersOf "k"
                 (SM.StoreState.mk [("k", Val.vint 9)] [("k", [0, 1])] [] [])).map
                (fun i => (i, Val.undefined, Val.vint 9)) :=
  ⟨rfl,
   delete_notifies_watchers_once
     (SM.StoreState.mk [("k", Val.vint 9)] [("k", [0, 1])] [] []) 3 "k" (Val.vint 9) rfl⟩

/-- C10: deleting a key that is absent (or holds `undefined`) is not a
no-op: the `deleteProperty` trap has no equality guard, so it still appends
a history record with action `'delete'` and `oldValue = newValue =
undefined` (the new record is the newest history entry, and a plain append
while the history is below capacity), and still notifies every watcher of
the key with `(undefined, undefined)`. -/
theorem delete_absent_key_not_noop (s : SM.StoreState) (now : Nat) (k : String)
    (h : SM.getVal k s = Val.undefined) :
    (SM.proxyDeleteProperty now k s).history.getLast?
        = some ⟨k, Val.undefined, Val.undefined, now, some "delete"⟩
    ∧ (s.history.length < 50 →
        (SM.proxyDeleteProperty now k s).history
          = s.history ++ [⟨k, Val.undefined, Val.undefined, now, some "delete"⟩])
    ∧ (SM.proxyDeleteProperty now k s).notifyLog
        = s.notifyLog ++ (SM.watchersOf k s).map (fun i => (i, Val.undefined, Val.undefined)) := by
  refine ⟨?_, ?_, ?_⟩
  · rw [SM.proxyDeleteProperty_eq, SM.notify_history, h]
    exact SM.addHistory_getLast _ _
  · intro hlen
    rw [SM.proxyDeleteProperty_eq, SM.notify_history, h]
    show SM.addHistory s.history _ = _
    unfold SM.addHistory
    have hle : ¬ (s.history ++ [(⟨k, Val.undefined, Val.undefined, now, some "delete"⟩ : SM.HistRec)]).length > SM.maxHistorySize := by
      simp [SM.maxHistorySize]
      omega
    simp only [hle, if_false]
  · rw [SM.proxyDeleteProperty_eq, SM.notify_notifyLog, h]
    rfl

theorem delete_absent_key_not_noop_witness :
    SM.getVal "k" (SM.StoreState.mk [] [("k", [4])] [] []) = Val.undefined
    ∧ ((SM.proxyDeleteProperty 2 "k"
          (SM.StoreState.mk [] [("k", [4])] [] [])).history.getLast?
        = some ⟨"k", Val.undefined, Val.undefined, 2, some "delete"⟩
       ∧ ((SM.StoreState.mk [] [("k", [4])] [] []).history.length < 50 →
            (SM.proxyDeleteProperty 2 "k"
              (SM.StoreState.mk [] [("k", [4])] [] [])).history
              = (SM.StoreState.mk [] [("k", [4])] [] []).history
                  ++ [⟨"k", Val.undefined, Val.undefined, 2, some "delete"⟩])
       ∧ (SM.proxyDeleteProperty 2 "k"
            (SM.StoreState.mk [] [("k", [4])] [] [])).notifyLog
          = (SM.StoreState.mk [] [("k", [4])] [] []).notifyLog
              ++ (SM.watchersOf "k" (SM.StoreState.mk [] [("k", [4])] [] [])).map
                  (fun i => (i, Val.undefined, Val.undefined))) :=
  ⟨rfl, delete_absent_key_not_noop (SM.StoreState.mk [] [("k", [4])] [] []) 2 "k" rfl⟩
